import Mathlib

/-!
Verification development for the light-gelf-collector core:
a shallow embedding of the GELF JSON parser (`src/gelf.rs`), the
format sniffer / decompression manager (`src/compression.rs`), the
bounded in-memory store and broadcaster (`src/storage.rs`) and the
UDP ingestion loop (`src/udp_handler.rs`), together with theorems
about the spec's testable properties.

Machine reals (`f64`) are modelled by exact rationals `ℚ`; the claims
treated here depend only on which formula is computed and on value
pass-through, never on floating-point rounding.
-/

/-- JSON value AST, modelling `serde_json::Value` as produced by the
text parser.  Integer literals (no fraction/exponent) are kept as `Int`
(modelling serde's `u64`/`i64` path); all other numeric literals are
kept as exact rationals in place of `f64`. -/
inductive Json where
  | null : Json
  | bool (b : Bool) : Json
  | int (n : Int) : Json
  | float (q : ℚ) : Json
  | str (s : String) : Json
  | arr (elems : List Json) : Json
  | obj (fields : List (String × Json)) : Json

/-- Error kinds of the JSON decode path, abstracting
`serde_json::Error` categories. -/
inductive JsonErr where
  | eof : JsonErr
  | invalidSyntax : JsonErr
  | invalidType : JsonErr
  | invalidValue : JsonErr
  | duplicateField : JsonErr
  deriving DecidableEq

/-- ASCII whitespace accepted between JSON tokens. -/
def isJsonWs (c : Char) : Bool :=
  c == ' ' || c == '\t' || c == '\n' || c == '\r'

/-- Skip leading JSON whitespace. -/
def skipWs (s : List Char) : List Char := s.dropWhile isJsonWs

/-- Decimal digit value of a character, if any. -/
def digitVal (c : Char) : Option Nat :=
  if '0' ≤ c ∧ c ≤ '9' then some (c.toNat - 48) else none

/-- Hexadecimal digit value of a character, if any. -/
def hexVal (c : Char) : Option Nat :=
  if '0' ≤ c ∧ c ≤ '9' then some (c.toNat - 48)
  else if 'a' ≤ c ∧ c ≤ 'f' then some (c.toNat - 87)
  else if 'A' ≤ c ∧ c ≤ 'F' then some (c.toNat - 55)
  else none

/-- Take a maximal run of decimal digits. -/
def takeDigits : List Char → List Nat × List Char
  | [] => ([], [])
  | c :: rest =>
    match digitVal c with
    | some d =>
      let p := takeDigits rest
      (d :: p.1, p.2)
    | none => ([], c :: rest)

/-- Value of a digit string, most significant first. -/
def natOfDigits (ds : List Nat) : Nat := ds.foldl (fun a d => a * 10 + d) 0

/-- Integer power of ten as a rational, for exponent scaling. -/
def qPow10 : Int → ℚ
  | Int.ofNat n => (10 : ℚ) ^ n
  | Int.negSucc n => 1 / (10 : ℚ) ^ (n + 1)

/-- Parse an optional fraction part `.digits`. -/
def parseFrac : List Char → Except JsonErr (Option (List Nat) × List Char)
  | '.' :: rest =>
    let p := takeDigits rest
    if p.1.isEmpty then .error .invalidSyntax else .ok (some p.1, p.2)
  | s => .ok (none, s)

/-- Parse an optional exponent part `[eE][+-]?digits`. -/
def parseExp : List Char → Except JsonErr (Option Int × List Char)
  | [] => .ok (none, [])
  | c :: rest =>
    if c == 'e' || c == 'E' then
      let sr : Int × List Char :=
        match rest with
        | '+' :: r => (1, r)
        | '-' :: r => (-1, r)
        | r => (1, r)
      let p := takeDigits sr.2
      if p.1.isEmpty then .error .invalidSyntax
      else .ok (some (sr.1 * (natOfDigits p.1 : Int)), p.2)
    else .ok (none, c :: rest)

/-- True when the list starts with a decimal digit. -/
def headIsDigit : List Char → Bool
  | c :: _ => (digitVal c).isSome
  | [] => false

/-- Parse a JSON number per the serde_json grammar: optional minus, an
integer part without leading zeros, optional fraction, optional
exponent.  A literal with neither fraction nor exponent becomes
`Json.int`; otherwise the exact decimal value becomes `Json.float`. -/
def parseNumber (s : List Char) : Except JsonErr (Json × List Char) :=
  let ns : Bool × List Char :=
    match s with
    | '-' :: rest => (true, rest)
    | _ => (false, s)
  match ns.2 with
  | [] => .error .eof
  | c :: rest =>
    match digitVal c with
    | none => .error .invalidSyntax
    | some d0 =>
      if d0 = 0 ∧ headIsDigit rest then
        .error .invalidSyntax
      else
        let ip := if d0 = 0 then ([], rest) else takeDigits rest
        let intVal : Nat := natOfDigits (d0 :: ip.1)
        match parseFrac ip.2 with
        | .error e => .error e
        | .ok (fr, s2) =>
          match parseExp s2 with
          | .error e => .error e
          | .ok (ex, s3) =>
            match fr, ex with
            | none, none =>
              .ok (.int (if ns.1 then -(intVal : Int) else (intVal : Int)), s3)
            | _, _ =>
              let fq : ℚ :=
                match fr with
                | none => 0
                | some ds => (natOfDigits ds : ℚ) / (10 : ℚ) ^ ds.length
              let mag : ℚ := ((intVal : ℚ) + fq) * qPow10 (ex.getD 0)
              .ok (.float (if ns.1 then -mag else mag), s3)

/-- Parse four hex digits of a `\u` escape. -/
def parseHex4 : List Char → Option (Nat × List Char)
  | a :: b :: c :: d :: rest => do
    let x ← hexVal a
    let y ← hexVal b
    let z ← hexVal c
    let w ← hexVal d
    pure (x * 4096 + y * 256 + z * 16 + w, rest)
  | _ => none

/-- Prepend a character to the content component of a string-body
parse result. -/
def consFst (c : Char) :
    Except JsonErr (List Char × List Char) → Except JsonErr (List Char × List Char)
  | .ok (cs, r) => .ok (c :: cs, r)
  | .error e => .error e

/-- Parse the body of a JSON string after the opening quote, handling
escapes (including surrogate pairs) and rejecting raw control
characters, as serde_json does.  Returns content and remaining input. -/
def parseStringBody : Nat → List Char → Except JsonErr (List Char × List Char)
  | 0, _ => .error .invalidSyntax
  | _, [] => .error .eof
  | fuel + 1, c :: rest =>
    if c == '"' then .ok ([], rest)
    else if c == '\\' then
      match rest with
      | [] => .error .eof
      | e :: rest1 =>
        if e == '"' then consFst '"' (parseStringBody fuel rest1)
        else if e == '\\' then consFst '\\' (parseStringBody fuel rest1)
        else if e == '/' then consFst '/' (parseStringBody fuel rest1)
        else if e == 'b' then consFst (Char.ofNat 8) (parseStringBody fuel rest1)
        else if e == 'f' then consFst (Char.ofNat 12) (parseStringBody fuel rest1)
        else if e == 'n' then consFst '\n' (parseStringBody fuel rest1)
        else if e == 'r' then consFst '\r' (parseStringBody fuel rest1)
        else if e == 't' then consFst '\t' (parseStringBody fuel rest1)
        else if e == 'u' then
          match parseHex4 rest1 with
          | none => .error .invalidSyntax
          | some (n, rest2) =>
            if 0xD800 ≤ n ∧ n ≤ 0xDBFF then
              match rest2 with
              | '\\' :: 'u' :: rest3 =>
                match parseHex4 rest3 with
                | none => .error .invalidSyntax
                | some (m, rest4) =>
                  if 0xDC00 ≤ m ∧ m ≤ 0xDFFF then
                    consFst (Char.ofNat (0x10000 + (n - 0xD800) * 0x400 + (m - 0xDC00)))
                      (parseStringBody fuel rest4)
                  else .error .invalidSyntax
              | _ => .error .invalidSyntax
            else if 0xDC00 ≤ n ∧ n ≤ 0xDFFF then .error .invalidSyntax
            else consFst (Char.ofNat n) (parseStringBody fuel rest2)
        else .error .invalidSyntax
    else if c.toNat < 0x20 then .error .invalidSyntax
    else consFst c (parseStringBody fuel rest)

mutual

/-- Parse one JSON value.  Fuel-indexed; any fuel of at least the
input length suffices. -/
def parseValue : Nat → List Char → Except JsonErr (Json × List Char)
  | 0, _ => .error .invalidSyntax
  | fuel + 1, s =>
    match s with
    | [] => .error .eof
    | 't' :: 'r' :: 'u' :: 'e' :: r => .ok (.bool true, r)
    | 'f' :: 'a' :: 'l' :: 's' :: 'e' :: r => .ok (.bool false, r)
    | 'n' :: 'u' :: 'l' :: 'l' :: r => .ok (.null, r)
    | '"' :: r =>
      match parseStringBody (r.length + 1) r with
      | .error e => .error e
      | .ok (cs, r1) => .ok (.str (String.mk cs), r1)
    | '\x7b' :: r =>
      match skipWs r with
      | '\x7d' :: r2 => .ok (.obj [], r2)
      | r1 =>
        match parseMembers fuel r1 with
        | .error e => .error e
        | .ok (fields, r2) => .ok (.obj fields, r2)
    | '[' :: r =>
      match skipWs r with
      | ']' :: r2 => .ok (.arr [], r2)
      | r1 =>
        match parseItems fuel r1 with
        | .error e => .error e
        | .ok (elems, r2) => .ok (.arr elems, r2)
    | s0 => parseNumber s0

/-- Parse the members of a JSON object, positioned at a key string. -/
def parseMembers : Nat → List Char →
    Except JsonErr (List (String × Json) × List Char)
  | 0, _ => .error .invalidSyntax
  | fuel + 1, s =>
    match s with
    | '"' :: r =>
      match parseStringBody (r.length + 1) r with
      | .error e => .error e
      | .ok (key, r1) =>
        match skipWs r1 with
        | ':' :: r2 =>
          match parseValue fuel (skipWs r2) with
          | .error e => .error e
          | .ok (v, r3) =>
            match skipWs r3 with
            | ',' :: r4 =>
              match parseMembers fuel (skipWs r4) with
              | .error e => .error e
              | .ok (fields, r5) => .ok ((String.mk key, v) :: fields, r5)
            | '\x7d' :: r4 => .ok ([(String.mk key, v)], r4)
            | [] => .error .eof
            | _ => .error .invalidSyntax
        | [] => .error .eof
        | _ => .error .invalidSyntax
    | [] => .error .eof
    | _ => .error .invalidSyntax

/-- Parse the elements of a JSON array, positioned at a value. -/
def parseItems : Nat → List Char → Except JsonErr (List Json × List Char)
  | 0, _ => .error .invalidSyntax
  | fuel + 1, s =>
    match parseValue fuel s with
    | .error e => .error e
    | .ok (v, r1) =>
      match skipWs r1 with
      | ',' :: r2 =>
        match parseItems fuel (skipWs r2) with
        | .error e => .error e
        | .ok (elems, r3) => .ok (v :: elems, r3)
      | ']' :: r2 => .ok ([v], r2)
      | [] => .error .eof
      | _ => .error .invalidSyntax

end

/-- Parse a complete JSON text: leading whitespace, one value, trailing
whitespace, end of input — modelling `serde_json::from_str`'s
whole-input discipline. -/
def parseJsonText (s : String) : Except JsonErr Json :=
  let cs := skipWs s.data
  match parseValue (cs.length + 1) cs with
  | .error e => .error e
  | .ok (v, rest) =>
    if (skipWs rest).isEmpty then .ok v else .error .invalidSyntax

/-- The canonical GELF record of `src/gelf.rs` (`GelfMessage`): every
named field optional, unknown top-level keys folded into
`additional_fields`.  `level` models `Option<u8>` (values 0–255),
`line` models `Option<u32>`, `timestamp` models `Option<f64>` as an
exact rational. -/
structure GelfMessage where
  version : Option String
  host : Option String
  short_message : Option String
  full_message : Option String
  timestamp : Option ℚ
  level : Option Nat
  facility : Option String
  line : Option Nat
  file : Option String
  additional_fields : List (String × Json)

/-- The named (non-flattened) keys of `GelfMessage`. -/
def knownKeys : List String :=
  ["version", "host", "short_message", "full_message", "timestamp",
   "level", "facility", "line", "file"]

/-- Whether a top-level key is one of the named `GelfMessage` fields. -/
def isKnownKey (k : String) : Bool := knownKeys.contains k

/-- All values bound to key `k` in an object, in order. -/
def keyOccurrences (fields : List (String × Json)) (k : String) : List Json :=
  (fields.filter (fun p => p.1 == k)).map (fun p => p.2)

/-- Extract the value of named field `k`: absent is fine, one
occurrence is taken, a repeated named field is serde's
duplicate-field error. -/
def getField (fields : List (String × Json)) (k : String) :
    Except JsonErr (Option Json) :=
  match keyOccurrences fields k with
  | [] => .ok none
  | [v] => .ok (some v)
  | _ :: _ :: _ => .error .duplicateField

/-- Decode an optional string field (`Option<String>`). -/
def decodeOptString : Option Json → Except JsonErr (Option String)
  | none => .ok none
  | some .null => .ok none
  | some (.str s) => .ok (some s)
  | some _ => .error .invalidType

/-- Decode an optional numeric field (`Option<f64>`): integer and
float JSON numbers are both accepted. -/
def decodeOptF64 : Option Json → Except JsonErr (Option ℚ)
  | none => .ok none
  | some .null => .ok none
  | some (.int n) => .ok (some (n : ℚ))
  | some (.float q) => .ok (some q)
  | some _ => .error .invalidType

/-- Decode an optional unsigned machine integer bounded by `bound`
(`Option<u8>` with bound 255, `Option<u32>` with bound 2^32 - 1):
only integer JSON numbers within range are accepted, exactly as
serde rejects out-of-range or non-integer values. -/
def decodeOptUInt (bound : Nat) : Option Json → Except JsonErr (Option Nat)
  | none => .ok none
  | some .null => .ok none
  | some (.int n) =>
    if 0 ≤ n ∧ n ≤ (bound : Int) then .ok (some n.toNat)
    else .error .invalidValue
  | some _ => .error .invalidType

/-- Insert into an association map, replacing an existing binding of
the same key (last occurrence wins), as serde_json's `Map` insert. -/
def insertKV : List (String × Json) → String → Json → List (String × Json)
  | [], k, v => [(k, v)]
  | (k0, v0) :: rest, k, v =>
    if k0 == k then (k0, v) :: rest else (k0, v0) :: insertKV rest k v

/-- Fold every unrecognized top-level key of the object into the
additional-fields mapping, in order, later duplicates replacing
earlier ones — the `#[serde(flatten)]` collection semantics. -/
def collectUnknown (fields : List (String × Json)) : List (String × Json) :=
  fields.foldl (fun m p => if isKnownKey p.1 then m else insertKV m p.1 p.2) []

/-- Extract and decode a named string field. -/
def readStrField (fields : List (String × Json)) (k : String) :
    Except JsonErr (Option String) :=
  getField fields k >>= decodeOptString

/-- Extract and decode a named numeric (`f64`) field. -/
def readF64Field (fields : List (String × Json)) (k : String) :
    Except JsonErr (Option ℚ) :=
  getField fields k >>= decodeOptF64

/-- Extract and decode a named bounded unsigned-integer field. -/
def readUIntField (fields : List (String × Json)) (k : String) (bound : Nat) :
    Except JsonErr (Option Nat) :=
  getField fields k >>= decodeOptUInt bound

/-- Deserialize a `GelfMessage` from the fields of a JSON object,
modelling the serde-derived deserializer of the struct in
`src/gelf.rs`: each named field is optional, a duplicated named field
or a type/range-invalid value is an error, unknown keys are collected
verbatim into `additional_fields`. -/
def decodeGelfObj (fields : List (String × Json)) : Except JsonErr GelfMessage := do
  let version ← readStrField fields "version"
  let host ← readStrField fields "host"
  let short_message ← readStrField fields "short_message"
  let full_message ← readStrField fields "full_message"
  let timestamp ← readF64Field fields "timestamp"
  let level ← readUIntField fields "level" 255
  let facility ← readStrField fields "facility"
  let line ← readUIntField fields "line" 4294967295
  let file ← readStrField fields "file"
  pure { version := version, host := host, short_message := short_message,
         full_message := full_message, timestamp := timestamp, level := level,
         facility := facility, line := line, file := file,
         additional_fields := collectUnknown fields }

/-- `JsonGelfParser::parse` of `src/gelf.rs`:
`serde_json::from_str::<GelfMessage>` — parse the whole text as one
JSON value, require an object, and deserialize its fields. -/
def JsonGelfParser.parse (message_str : String) : Except JsonErr GelfMessage :=
  match parseJsonText message_str with
  | .error e => .error e
  | .ok (.obj fields) => decodeGelfObj fields
  | .ok _ => .error .invalidType

/-- True for a UTF-8 continuation byte `0x80..0xBF`. -/
def isContByte (b : Nat) : Bool := 0x80 ≤ b && b ≤ 0xBF

/-- The Unicode replacement character U+FFFD. -/
def replChar : Char := Char.ofNat 0xFFFD

/-- Fuel-indexed UTF-8 decoding with replacement of maximal invalid
subparts, modelling Rust's `String::from_utf8_lossy`. -/
def utf8LossyAux : Nat → List Nat → List Char
  | 0, _ => []
  | _, [] => []
  | fuel + 1, b :: rest =>
    if b < 0x80 then Char.ofNat b :: utf8LossyAux fuel rest
    else if 0xC2 ≤ b ∧ b ≤ 0xDF then
      match rest with
      | b1 :: rest1 =>
        if isContByte b1 then
          Char.ofNat ((b - 0xC0) * 64 + (b1 - 0x80)) :: utf8LossyAux fuel rest1
        else replChar :: utf8LossyAux fuel rest
      | [] => [replChar]
    else if 0xE0 ≤ b ∧ b ≤ 0xEF then
      match rest with
      | b1 :: rest1 =>
        let lo1 : Nat := if b = 0xE0 then 0xA0 else 0x80
        let hi1 : Nat := if b = 0xED then 0x9F else 0xBF
        if lo1 ≤ b1 ∧ b1 ≤ hi1 then
          match rest1 with
          | b2 :: rest2 =>
            if isContByte b2 then
              Char.ofNat ((b - 0xE0) * 4096 + (b1 - 0x80) * 64 + (b2 - 0x80)) ::
                utf8LossyAux fuel rest2
            else replChar :: utf8LossyAux fuel rest1
          | [] => [replChar]
        else replChar :: utf8LossyAux fuel rest
      | [] => [replChar]
    else if 0xF0 ≤ b ∧ b ≤ 0xF4 then
      match rest with
      | b1 :: rest1 =>
        let lo1 : Nat := if b = 0xF0 then 0x90 else 0x80
        let hi1 : Nat := if b = 0xF4 then 0x8F else 0xBF
        if lo1 ≤ b1 ∧ b1 ≤ hi1 then
          match rest1 with
          | b2 :: rest2 =>
            if isContByte b2 then
              match rest2 with
              | b3 :: rest3 =>
                if isContByte b3 then
                  Char.ofNat ((b - 0xF0) * 262144 + (b1 - 0x80) * 4096 +
                      (b2 - 0x80) * 64 + (b3 - 0x80)) :: utf8LossyAux fuel rest3
                else replChar :: utf8LossyAux fuel rest2
              | [] => [replChar]
            else replChar :: utf8LossyAux fuel rest1
          | [] => [replChar]
        else replChar :: utf8LossyAux fuel rest
      | [] => [replChar]
    else replChar :: utf8LossyAux fuel rest

/-- `String::from_utf8_lossy` over a byte sequence. -/
def utf8Lossy (bytes : List Nat) : String :=
  String.mk (utf8LossyAux bytes.length bytes)

/-- Decompression failure, abstracting `std::io::Error` from a corrupt
compressed payload. -/
inductive DecompErr where
  | corrupt : DecompErr
  deriving DecidableEq

/-- `GzipDecompressor::can_handle` of `src/compression.rs`:
`data.len() > 2 && data[0] == 0x1f && data[1] == 0x8b`. -/
def GzipDecompressor.can_handle (data : List Nat) : Bool :=
  data.length > 2 &&
    (match data with
     | b0 :: b1 :: _ => b0 == 0x1f && b1 == 0x8b
     | _ => false)

/-- `ZlibDecompressor::can_handle` of `src/compression.rs`:
`data.len() > 2 && data[0] == 0x78 && (data[1] == 0x9c || data[1] == 0xda || data[1] == 0x01)`. -/
def ZlibDecompressor.can_handle (data : List Nat) : Bool :=
  data.length > 2 &&
    (match data with
     | b0 :: b1 :: _ => b0 == 0x78 && (b1 == 0x9c || b1 == 0xda || b1 == 0x01)
     | _ => false)

/-- `CompressionManager::decompress` of `src/compression.rs`: try the
detectors in fixed order (gzip, then zlib); the first whose
`can_handle` accepts runs its stream decoder once; with no match the
input is returned unchanged.  The flate2 stream decoders are external
library code and enter the model as the function parameters `gz` and
`zl`. -/
def CompressionManager.decompress
    (gz zl : List Nat → Except DecompErr (List Nat))
    (data : List Nat) : Except DecompErr (List Nat) :=
  if GzipDecompressor.can_handle data then gz data
  else if ZlibDecompressor.can_handle data then zl data
  else .ok data

/-- A stored entry of `src/gelf.rs` (`StoredMessage`): the record, the
server-assigned reception time (`SystemTime::now` enters the model as
the explicit parameter `now` of `StoredMessage.new`), and the raw
decoded text. -/
structure StoredMessage where
  gelf_message : GelfMessage
  received_at : ℚ
  raw_message : String

/-- The broadcast projection of a stored entry
(`MessageResponse` of `src/gelf.rs`): record plus reception time, raw
text excluded. -/
structure MessageResponse where
  gelf_message : GelfMessage
  received_at : ℚ

/-- `StoredMessage::new`: wrap a record with the current reception
time and the raw text.  The wall clock is an input of the model. -/
def StoredMessage.new (gelf_message : GelfMessage) (raw_message : String)
    (now : ℚ) : StoredMessage :=
  { gelf_message := gelf_message, received_at := now, raw_message := raw_message }

/-- `StoredMessage::to_response`: project the stored entry to its
broadcast message. -/
def StoredMessage.to_response (m : StoredMessage) : MessageResponse :=
  { gelf_message := m.gelf_message, received_at := m.received_at }

/-- The broadcast channel state behind `DefaultBroadcaster`
(`src/storage.rs` wraps `tokio::sync::broadcast`).  Modelled from the
spec: the channel retains the full publish history; each receiver
tracks how many published messages it has consumed; a bounded
`capacity` controls how far a receiver may fall behind before its next
receive reports a lag signal instead of a message. -/
structure BChannel where
  capacity : Nat
  published : List MessageResponse

/-- A subscriber handle: the index of the next message to receive. -/
structure BReceiver where
  pos : Nat

/-- `DefaultBroadcaster::new`: a fresh channel with the given bounded
capacity and no history. -/
def DefaultBroadcaster.new (capacity : Nat) : BChannel :=
  { capacity := capacity, published := [] }

/-- `broadcast::Sender::subscribe`: a new independent receiver that
starts at the current end of the publish history — it observes
messages published after this call and none before. -/
def BChannel.subscribe (ch : BChannel) : BReceiver :=
  { pos := ch.published.length }

/-- `DefaultBroadcaster::broadcast` / `broadcast::Sender::send`:
append the message to the publish history.  Total — publishing is
defined for every channel state, with any number of subscribers
including zero (the store ignores the no-receiver error). -/
def BChannel.send (ch : BChannel) (m : MessageResponse) : BChannel :=
  { ch with published := ch.published ++ [m] }

/-- Publish a sequence of messages in order. -/
def BChannel.sendAll (ch : BChannel) (ms : List MessageResponse) : BChannel :=
  ms.foldl BChannel.send ch

/-- Result of one receive attempt.  Modelled from the spec:
`ok` delivers the next message; `lagged n` is the explicit overflow
signal after `n` messages were missed, skipping the receiver forward;
`empty` stands for an attempt that would await a future publish. -/
inductive RecvResult where
  | ok (m : MessageResponse) : RecvResult
  | lagged (missed : Nat) : RecvResult
  | empty : RecvResult

/-- `broadcast::Receiver::recv`.  Modelled from the spec: a receiver
more than `capacity` messages behind observes a lag signal and resumes
at the oldest retained message; otherwise it receives the next
message in publish order. -/
def BChannel.recv (ch : BChannel) (r : BReceiver) : RecvResult × BReceiver :=
  let len := ch.published.length
  if len ≤ r.pos then (.empty, r)
  else if ch.capacity < len - r.pos then
    (.lagged (len - ch.capacity - r.pos), { pos := len - ch.capacity })
  else
    match (ch.published.drop r.pos).head? with
    | some m => (.ok m, { pos := r.pos + 1 })
    | none => (.empty, r)

/-- Drain up to `fuel` messages from a receiver, stopping at the first
receive that is not a plain delivery. -/
def BChannel.drain (ch : BChannel) (r : BReceiver) : Nat → List MessageResponse
  | 0 => []
  | fuel + 1 =>
    match ch.recv r with
    | (.ok m, r1) => m :: ch.drain r1 fuel
    | _ => []

/-- The eviction loop of `InMemoryMessageStore::add_message`:
`while messages_guard.len() > max_size { messages_guard.pop_front(); }`
on the oldest-first sequence. -/
def cleanup (max_size : Nat) : List StoredMessage → List StoredMessage
  | [] => []
  | x :: xs =>
    if xs.length + 1 > max_size then cleanup max_size xs else x :: xs

/-- `InMemoryMessageStore::add_message` of `src/storage.rs`: build the
stored entry and its broadcast projection, push it at the tail, evict
from the head while the length exceeds `max_size`, then publish the
projection to the broadcaster (its error, if any, is ignored). -/
def InMemoryMessageStore.add_message (max_size : Nat)
    (st : List StoredMessage) (ch : BChannel)
    (gelf_message : GelfMessage) (raw_message : String) (now : ℚ) :
    List StoredMessage × BChannel :=
  let stored_message := StoredMessage.new gelf_message raw_message now
  let response := stored_message.to_response
  (cleanup max_size (st ++ [stored_message]), ch.send response)

/-- `InMemoryMessageStore::get_messages` of `src/storage.rs`: iterate
the retained entries newest first, take up to `limit` of them (all of
them when `limit` is `None`), and project each to its response. -/
def InMemoryMessageStore.get_messages (limit : Option Nat)
    (st : List StoredMessage) : List MessageResponse :=
  ((st.reverse).take (limit.getD st.length)).map StoredMessage.to_response

/-- The aggregate statistics returned by
`InMemoryMessageStore::get_stats`: current length, configured
capacity, and the used-capacity percentage. -/
structure StoreStats where
  total_messages : Nat
  max_capacity : Nat
  capacity_used_percent : ℚ

/-- `InMemoryMessageStore::get_stats` of `src/storage.rs`:
`(len as f64 / max_size as f64) * 100.0`, the `f64` arithmetic
modelled by exact rationals; there is no special case for
`max_size = 0`. -/
def InMemoryMessageStore.get_stats (max_size : Nat)
    (st : List StoredMessage) : StoreStats :=
  { total_messages := st.length, max_capacity := max_size,
    capacity_used_percent := (st.length : ℚ) / (max_size : ℚ) * 100 }

/-- `InMemoryMessageStore::new` of `src/storage.rs`: an empty store of
the given capacity whose broadcaster is `DefaultBroadcaster::new(100)`. -/
def InMemoryMessageStore.new (max_size : Nat) :
    Nat × List StoredMessage × BChannel :=
  (max_size, [], DefaultBroadcaster.new 100)

/-- One transport event seen by the ingestion loop: a received
datagram (with the wall-clock time at which the store would accept
it), or a transport-level receive error. -/
inductive UdpEvent where
  | datagram (data : List Nat) (now : ℚ) : UdpEvent
  | recvErr : UdpEvent

/-- The per-datagram body of `UdpMessageHandler::run`
(`src/udp_handler.rs`): decompress; on failure drop the payload and
continue; on success decode as text (`String::from_utf8_lossy`) and
parse; on parse failure drop and continue; on success
`store.add_message(gelf_msg, message_str)`. -/
def processDatagram (gz zl : List Nat → Except DecompErr (List Nat))
    (max_size : Nat) (st : List StoredMessage) (ch : BChannel)
    (data : List Nat) (now : ℚ) : List StoredMessage × BChannel :=
  match CompressionManager.decompress gz zl data with
  | .error _ => (st, ch)
  | .ok decompressed =>
    let message_str := utf8Lossy decompressed
    match JsonGelfParser.parse message_str with
    | .ok gelf_msg =>
      InMemoryMessageStore.add_message max_size st ch gelf_msg message_str now
    | .error _ => (st, ch)

/-- The ingestion loop of `UdpMessageHandler::run` over a finite
sequence of transport events: a datagram is processed by
`processDatagram`; a receive error is logged and the loop continues
with the state unchanged.  The loop body has no exit path. -/
def runEvents (gz zl : List Nat → Except DecompErr (List Nat))
    (max_size : Nat) : List StoredMessage × BChannel → List UdpEvent →
    List StoredMessage × BChannel
  | s, [] => s
  | s, .datagram data now :: evs =>
    runEvents gz zl max_size (processDatagram gz zl max_size s.1 s.2 data now) evs
  | s, .recvErr :: evs => runEvents gz zl max_size s evs

/-- Append a sequence of records to the store (repeated
`add_message`), threading the broadcaster. -/
def appendAll (max_size : Nat) (s : List StoredMessage × BChannel)
    (inputs : List (GelfMessage × String × ℚ)) :
    List StoredMessage × BChannel :=
  inputs.foldl
    (fun s p => InMemoryMessageStore.add_message max_size s.1 s.2 p.1 p.2.1 p.2.2) s

/-- The stored entry an append input produces. -/
def mkStored (p : GelfMessage × String × ℚ) : StoredMessage :=
  StoredMessage.new p.1 p.2.1 p.2.2

/-- The record with every named field absent — what parsing the byte
payload of an empty JSON object yields. -/
def emptyGelf : GelfMessage :=
  { version := none, host := none, short_message := none,
    full_message := none, timestamp := none, level := none, facility := none,
    line := none, file := none, additional_fields := [] }

/-- A sample stored entry for closed witness statements. -/
def sampleStored : StoredMessage := { gelf_message := emptyGelf, received_at := 0, raw_message := "" }

/-- A sample broadcast message for closed witness statements. -/
def sampleResponse : MessageResponse := { gelf_message := emptyGelf, received_at := 0 }

/-- The bytes of the text `hello` — an uncompressed payload that is
not valid JSON. -/
def helloBytes : List Nat := [104, 101, 108, 108, 111]

/-- The bytes of the text of an empty JSON object — an uncompressed
payload that parses successfully. -/
def emptyObjBytes : List Nat := [123, 125]

/-- Whether a transport event is a received datagram (as opposed to a
receive error). -/
def isDatagramEvent : UdpEvent → Bool
  | .datagram _ _ => true
  | .recvErr => false

/-- First binding of a key in an association list. -/
def lookupKey : List (String × Json) → String → Option Json
  | [], _ => none
  | (k0, v0) :: rest, k => if k0 == k then some v0 else lookupKey rest k

/-- Last binding of a key among the (possibly repeated) pairs of a
JSON object. -/
def lookupLast (fields : List (String × Json)) (k : String) : Option Json :=
  lookupKey fields.reverse k

/-- A decompressor stub that always reports a corrupt stream, for
closed witness statements. -/
def failDecomp : List Nat → Except DecompErr (List Nat) := fun _ => .error .corrupt

/-- A decompressor stub with a fixed output distinct from the inputs
used in counterexamples, to make selection observable. -/
def constDecomp : List Nat → Except DecompErr (List Nat) := fun _ => .ok [0]

theorem drop_append_left {α : Type} (l₁ l₂ : List α) (n : Nat) (h : n ≤ l₁.length) :
    (l₁ ++ l₂).drop n = l₁.drop n ++ l₂ := by
  rw [List.drop_append_eq_append_drop]
  have h0 : n - l₁.length = 0 := by omega
  simp [h0]

theorem cleanup_eq_drop (max_size : Nat) (l : List StoredMessage) :
    cleanup max_size l = l.drop (l.length - max_size) := by
  induction l with
  | nil => simp [cleanup]
  | cons x xs ih =>
    simp only [cleanup, List.length_cons]
    by_cases h : xs.length + 1 > max_size
    · have hd : xs.length + 1 - max_size = (xs.length - max_size) + 1 := by omega
      simp [h, ih, hd]
    · have hd : xs.length + 1 - max_size = 0 := by omega
      simp [h, hd]

theorem add_message_fst (max_size : Nat) (st : List StoredMessage) (ch : BChannel)
    (g : GelfMessage) (raw : String) (now : ℚ) :
    (InMemoryMessageStore.add_message max_size st ch g raw now).1
      = (st ++ [StoredMessage.new g raw now]).drop (st.length + 1 - max_size) := by
  simp [InMemoryMessageStore.add_message, cleanup_eq_drop]

theorem appendAll_fst (max_size : Nat) (inputs : List (GelfMessage × String × ℚ)) :
    ∀ (st : List StoredMessage) (ch : BChannel), st.length ≤ max_size →
    (appendAll max_size (st, ch) inputs).1
      = (st ++ inputs.map mkStored).drop (st.length + inputs.length - max_size) := by
  induction inputs with
  | nil =>
    intro st ch hst
    have h0 : st.length - max_size = 0 := by omega
    simp [appendAll, h0]
  | cons p rest ih =>
    intro st ch hst
    have hstep :
        appendAll max_size (st, ch) (p :: rest)
          = appendAll max_size
              (InMemoryMessageStore.add_message max_size st ch p.1 p.2.1 p.2.2) rest := rfl
    set s1 := InMemoryMessageStore.add_message max_size st ch p.1 p.2.1 p.2.2 with hs1
    have heta : s1 = (s1.1, s1.2) := rfl
    have hfst : s1.1 = (st ++ [mkStored p]).drop (st.length + 1 - max_size) := by
      rw [hs1]; exact add_message_fst max_size st ch p.1 p.2.1 p.2.2
    have hlen : s1.1.length = (st.length + 1) - (st.length + 1 - max_size) := by
      rw [hfst]; simp
    have hcap : s1.1.length ≤ max_size := by omega
    rw [hstep, heta, ih s1.1 s1.2 hcap, hfst]
    have hle : st.length + 1 - max_size ≤ (st ++ [mkStored p]).length := by
      simp
    rw [← drop_append_left (st ++ [mkStored p]) (rest.map mkStored) _ hle]
    rw [List.drop_drop]
    have harr : st ++ [mkStored p] ++ rest.map mkStored = st ++ (p :: rest).map mkStored := by
      simp
    rw [harr]
    have hx : ((st ++ [mkStored p]).drop (st.length + 1 - max_size)).length
        = (st.length + 1) - (st.length + 1 - max_size) := by simp
    congr 1
    simp only [List.length_cons, hx]
    omega

/-- C1: for every sequence of appends to a store of capacity `C`,
after each append (i.e. after any prefix of `n` appends starting from
the empty store) the length is `min n C` and the retained entries are
exactly the `C` most recently appended, oldest first; moreover a
single `add_message` from an arbitrary state (even one already over
capacity) leaves the length at most `C`. -/
theorem c1_eviction_bound (C : Nat) (ch : BChannel)
    (inputs : List (GelfMessage × String × ℚ)) (n : Nat) (hn : n ≤ inputs.length)
    (st : List StoredMessage) (g : GelfMessage) (raw : String) (now : ℚ) :
    (appendAll C ([], ch) (inputs.take n)).1
        = ((inputs.take n).map mkStored).drop (n - C) ∧
    (appendAll C ([], ch) (inputs.take n)).1.length = min n C ∧
    (InMemoryMessageStore.add_message C st ch g raw now).1.length ≤ C := by
  have hlen_take : (inputs.take n).length = n := by
    simp [List.length_take]; omega
  have h1 := appendAll_fst C (inputs.take n) [] ch (by simp)
  refine ⟨?_, ?_, ?_⟩
  · rw [h1]
    simp only [List.nil_append, List.length_nil, Nat.zero_add, hlen_take]
  · rw [h1]
    simp only [List.nil_append, List.length_nil, Nat.zero_add, hlen_take,
      List.length_drop, List.length_map]
    omega
  · rw [add_message_fst]
    simp only [List.length_drop, List.length_append, List.length_cons,
      List.length_nil]
    omega

/-- Witness for C1 at capacity 1 and two appends. -/
theorem c1_eviction_bound_witness :
    2 ≤ [(emptyGelf, "", (0 : ℚ)), (emptyGelf, "a", (1 : ℚ))].length ∧
    ((appendAll 1 ([], DefaultBroadcaster.new 100)
        ([(emptyGelf, "", (0 : ℚ)), (emptyGelf, "a", (1 : ℚ))].take 2)).1
      = (([(emptyGelf, "", (0 : ℚ)), (emptyGelf, "a", (1 : ℚ))].take 2).map mkStored).drop (2 - 1) ∧
    (appendAll 1 ([], DefaultBroadcaster.new 100)
        ([(emptyGelf, "", (0 : ℚ)), (emptyGelf, "a", (1 : ℚ))].take 2)).1.length = min 2 1 ∧
    (InMemoryMessageStore.add_message 1 [] (DefaultBroadcaster.new 100)
        emptyGelf "" 0).1.length ≤ 1) :=
  ⟨by decide,
   c1_eviction_bound 1 (DefaultBroadcaster.new 100)
     [(emptyGelf, "", (0 : ℚ)), (emptyGelf, "a", (1 : ℚ))] 2 (by decide)
     [] emptyGelf "" 0⟩

/-- C2: snapshots are newest first — `get_messages none` returns all
retained entries in reverse append order, `get_messages (some 0)` is
empty for every store state, and `get_messages (some k)` with
`k ≥ length` is the full contents newest first. -/
theorem c2_snapshot_semantics (st : List StoredMessage) (k : Nat)
    (hk : st.length ≤ k) :
    InMemoryMessageStore.get_messages none st
        = (st.map StoredMessage.to_response).reverse ∧
    InMemoryMessageStore.get_messages (some 0) st = [] ∧
    InMemoryMessageStore.get_messages (some k) st
        = (st.map StoredMessage.to_response).reverse := by
  unfold InMemoryMessageStore.get_messages
  refine ⟨?_, by simp, ?_⟩
  · simp only [Option.getD]
    rw [List.take_of_length_le (by simp)]
    exact List.map_reverse _ _
  · simp only [Option.getD]
    rw [List.take_of_length_le (by simp [hk])]
    exact List.map_reverse _ _

/-- Witness for C2 on a one-entry store with limit 5. -/
theorem c2_snapshot_semantics_witness :
    [sampleStored].length ≤ 5 ∧
    (InMemoryMessageStore.get_messages none [sampleStored]
        = ([sampleStored].map StoredMessage.to_response).reverse ∧
    InMemoryMessageStore.get_messages (some 0) [sampleStored] = [] ∧
    InMemoryMessageStore.get_messages (some 5) [sampleStored]
        = ([sampleStored].map StoredMessage.to_response).reverse) :=
  ⟨by decide, c2_snapshot_semantics [sampleStored] 5 (by decide)⟩

/-- C9: `get_stats` reports the store's current length, the configured
capacity, and length / capacity * 100 as the used-capacity
percentage, with no special case for capacity 0 (the same formula is
applied for every `max_size`, zero included). -/
theorem c9_stats_formula (max_size : Nat) (st : List StoredMessage) :
    (InMemoryMessageStore.get_stats max_size st).total_messages
        = (InMemoryMessageStore.get_messages none st).length ∧
    (InMemoryMessageStore.get_stats max_size st).max_capacity = max_size ∧
    (InMemoryMessageStore.get_stats max_size st).capacity_used_percent
        = ((InMemoryMessageStore.get_stats max_size st).total_messages : ℚ)
            / (max_size : ℚ) * 100 := by
  refine ⟨?_, rfl, rfl⟩
  simp [InMemoryMessageStore.get_stats, InMemoryMessageStore.get_messages]

/-- C10: the broadcast message is published even when the appended
entry is immediately evicted — an append at capacity 0 leaves the
store empty yet extends the publish history — and for every capacity
the published message is the projection of the stored entry: the same
record and the same reception timestamp. -/
theorem c10_publish_despite_eviction (st : List StoredMessage) (ch : BChannel)
    (g : GelfMessage) (raw : String) (now : ℚ) :
    (InMemoryMessageStore.add_message 0 st ch g raw now).1 = [] ∧
    (∀ C : Nat, (InMemoryMessageStore.add_message C st ch g raw now).2.published
        = ch.published ++ [(StoredMessage.new g raw now).to_response]) ∧
    (StoredMessage.new g raw now).to_response
        = { gelf_message := g, received_at := now } := by
  refine ⟨?_, fun C => rfl, rfl⟩
  rw [add_message_fst]
  have hidx : st.length + 1 - 0 = (st ++ [StoredMessage.new g raw now]).length := by
    simp
  rw [hidx, List.drop_length]

theorem sendAll_published (ms : List MessageResponse) :
    ∀ ch : BChannel, (ch.sendAll ms).published = ch.published ++ ms ∧
      (ch.sendAll ms).capacity = ch.capacity := by
  induction ms with
  | nil => intro ch; simp [BChannel.sendAll]
  | cons m rest ih =>
    intro ch
    have hstep : ch.sendAll (m :: rest) = (ch.send m).sendAll rest := rfl
    obtain ⟨h1, h2⟩ := ih (ch.send m)
    rw [hstep]
    refine ⟨?_, by rw [h2]; rfl⟩
    rw [h1]
    simp [BChannel.send]

theorem drain_eq (ch : BChannel) (n : Nat) :
    ∀ p : Nat, p + n ≤ ch.published.length →
      ch.published.length - p ≤ ch.capacity →
      ch.drain ⟨p⟩ n = (ch.published.drop p).take n := by
  induction n with
  | zero => intro p h1 h2; simp [BChannel.drain]
  | succ n ih =>
    intro p h1 h2
    have hp : p < ch.published.length := by omega
    have hrecv : ch.recv ⟨p⟩ = (.ok (ch.published.get ⟨p, hp⟩), ⟨p + 1⟩) := by
      unfold BChannel.recv
      have h3 : ¬ ch.published.length ≤ p := by omega
      have h4 : ¬ ch.capacity < ch.published.length - p := by omega
      rw [if_neg h3, if_neg h4]
      have hhead : (ch.published.drop p).head? = some (ch.published.get ⟨p, hp⟩) := by
        rw [List.drop_eq_getElem_cons hp]; rfl
      rw [hhead]
    simp only [BChannel.drain, hrecv]
    rw [ih (p + 1) (by omega) (by omega)]
    rw [List.drop_eq_getElem_cons hp]
    rfl

/-- C6: subscribing yields an independent receiver positioned at the
current end of the publish history — its first receive on an unchanged
channel would await (no replay), and after `ms1` messages are
published it drains exactly `ms1` (every message published after the
subscription and none before) as long as `ms1` fits the bounded
capacity; a subscriber that falls more than `capacity` behind observes
an explicit lag signal on its next receive; publishing is a total
operation defined for every channel state (zero subscribers included);
and the store's default broadcaster capacity is 100. -/
theorem c6_broadcaster_contract (ch : BChannel) (ms1 ms2 : List MessageResponse)
    (m0 : MessageResponse) (max_size : Nat)
    (h1 : ms1.length ≤ ch.capacity) (h2 : ch.capacity < ms2.length) :
    (ch.subscribe).pos = ch.published.length ∧
    (ch.recv ch.subscribe).1 = .empty ∧
    (ch.sendAll ms1).drain ch.subscribe ms1.length = ms1 ∧
    ((ch.sendAll ms2).recv ch.subscribe).1 = .lagged (ms2.length - ch.capacity) ∧
    ch.send m0 = { capacity := ch.capacity, published := ch.published ++ [m0] } ∧
    (InMemoryMessageStore.new max_size).2.2.capacity = 100 := by
  obtain ⟨hp1, hc1⟩ := sendAll_published ms1 ch
  obtain ⟨hp2, hc2⟩ := sendAll_published ms2 ch
  refine ⟨rfl, ?_, ?_, ?_, rfl, rfl⟩
  · unfold BChannel.recv BChannel.subscribe
    rw [if_pos (Nat.le_refl _)]
  · have hsub : ch.subscribe = (⟨ch.published.length⟩ : BReceiver) := rfl
    rw [hsub]
    rw [drain_eq (ch.sendAll ms1) ms1.length ch.published.length
      (by rw [hp1]; simp) (by rw [hp1, hc1]; simp [h1])]
    rw [hp1, List.drop_left, List.take_length]
  · unfold BChannel.recv BChannel.subscribe
    have hlen : (ch.sendAll ms2).published.length = ch.published.length + ms2.length := by
      rw [hp2]; simp
    have h3 : ¬ (ch.sendAll ms2).published.length ≤ ch.published.length := by
      rw [hlen]; omega
    have h4 : (ch.sendAll ms2).capacity
        < (ch.sendAll ms2).published.length - ch.published.length := by
      rw [hlen, hc2]; omega
    rw [if_neg h3, if_pos h4]
    have h5 : (ch.sendAll ms2).published.length - (ch.sendAll ms2).capacity
        - ch.published.length = ms2.length - ch.capacity := by
      rw [hlen, hc2]; omega
    rw [h5]

/-- Witness for C6 on a capacity-2 channel: one message fits, three
overflow. -/
theorem c6_broadcaster_contract_witness :
    [sampleResponse].length ≤ (BChannel.mk 2 []).capacity ∧
    (BChannel.mk 2 []).capacity
        ≤ [sampleResponse, sampleResponse, sampleResponse].length ∧
    (((BChannel.mk 2 []).sendAll [sampleResponse]).drain
        (BChannel.mk 2 []).subscribe 1 = [sampleResponse] ∧
    (((BChannel.mk 2 []).sendAll
        [sampleResponse, sampleResponse, sampleResponse]).recv
        (BChannel.mk 2 []).subscribe).1 = .lagged 1 ∧
    (InMemoryMessageStore.new 7).2.2.capacity = 100) :=
  ⟨by decide, by decide,
   (c6_broadcaster_contract (BChannel.mk 2 []) [sampleResponse]
      [sampleResponse, sampleResponse, sampleResponse] sampleResponse 7
      (by decide) (by decide)).2.2.1,
   (c6_broadcaster_contract (BChannel.mk 2 []) [sampleResponse]
      [sampleResponse, sampleResponse, sampleResponse] sampleResponse 7
      (by decide) (by decide)).2.2.2.1,
   (c6_broadcaster_contract (BChannel.mk 2 []) [sampleResponse]
      [sampleResponse, sampleResponse, sampleResponse] sampleResponse 7
      (by decide) (by decide)).2.2.2.2.2⟩

/-- C7: every transport-level receive error is non-fatal to the
ingestion loop — processing a receive error leaves the state unchanged
and continues with the remaining events, so a run over any event
sequence equals the run over its datagrams alone; the loop body of
`UdpMessageHandler::run` has no exit path, so no receive error
terminates it. -/
theorem c7_recv_error_nonfatal (gz zl : List Nat → Except DecompErr (List Nat))
    (max_size : Nat) (s : List StoredMessage × BChannel) (evs : List UdpEvent) :
    runEvents gz zl max_size s (UdpEvent.recvErr :: evs)
        = runEvents gz zl max_size s evs ∧
    runEvents gz zl max_size s evs
        = runEvents gz zl max_size s (evs.filter isDatagramEvent) := by
  refine ⟨rfl, ?_⟩
  induction evs generalizing s with
  | nil => rfl
  | cons e rest ih =>
    cases e with
    | datagram data now =>
      rw [List.filter_cons]
      simp only [isDatagramEvent, if_pos]
      show runEvents gz zl max_size
          (processDatagram gz zl max_size s.1 s.2 data now) rest = _
      exact ih _
    | recvErr =>
      rw [List.filter_cons]
      simp only [isDatagramEvent]
      show runEvents gz zl max_size s rest = _
      exact ih s

/-- C3 (amended): detection is by magic-byte prefix with a minimum
input length of three bytes (`data.len() > 2`): gzip claims inputs of
length at least 3 starting `0x1f 0x8b`, zlib claims inputs of length
at least 3 starting `0x78` followed by `0x9c`, `0xda` or `0x01`,
checked in that fixed priority order with first match winning;
decompression is applied at most once; and when no detector matches —
in particular for every input of length at most 2, magic prefix or
not — the output is exactly the input. -/
theorem c3_sniffer_selection (data : List Nat)
    (gz zl : List Nat → Except DecompErr (List Nat)) :
    (GzipDecompressor.can_handle data = true ↔
        2 < data.length ∧ data.take 2 = [0x1f, 0x8b]) ∧
    (ZlibDecompressor.can_handle data = true ↔
        2 < data.length ∧ (data.take 2 = [0x78, 0x9c] ∨
          data.take 2 = [0x78, 0xda] ∨ data.take 2 = [0x78, 0x01])) ∧
    (GzipDecompressor.can_handle data = true →
        CompressionManager.decompress gz zl data = gz data) ∧
    (GzipDecompressor.can_handle data = false →
        ZlibDecompressor.can_handle data = true →
        CompressionManager.decompress gz zl data = zl data) ∧
    (GzipDecompressor.can_handle data = false →
        ZlibDecompressor.can_handle data = false →
        CompressionManager.decompress gz zl data = .ok data) ∧
    (data.length ≤ 2 → CompressionManager.decompress gz zl data = .ok data) := by
  have hgz : GzipDecompressor.can_handle data = true ↔
      2 < data.length ∧ data.take 2 = [0x1f, 0x8b] := by
    rcases data with _ | ⟨b0, _ | ⟨b1, rest⟩⟩
    · simp [GzipDecompressor.can_handle]
    · simp [GzipDecompressor.can_handle]
    · simp [GzipDecompressor.can_handle]
  have hzl : ZlibDecompressor.can_handle data = true ↔
      2 < data.length ∧ (data.take 2 = [0x78, 0x9c] ∨
        data.take 2 = [0x78, 0xda] ∨ data.take 2 = [0x78, 0x01]) := by
    rcases data with _ | ⟨b0, _ | ⟨b1, rest⟩⟩
    · simp [ZlibDecompressor.can_handle]
    · simp [ZlibDecompressor.can_handle]
    · simp [ZlibDecompressor.can_handle]
      omega
  refine ⟨hgz, hzl, ?_, ?_, ?_, ?_⟩
  · intro h; simp [CompressionManager.decompress, h]
  · intro h h2; simp [CompressionManager.decompress, h, h2]
  · intro h h2; simp [CompressionManager.decompress, h, h2]
  · intro hlen
    have h : GzipDecompressor.can_handle data = false := by
      cases hb : GzipDecompressor.can_handle data
      · rfl
      · exact absurd (hgz.mp hb).1 (by omega)
    have h2 : ZlibDecompressor.can_handle data = false := by
      cases hb : ZlibDecompressor.can_handle data
      · rfl
      · exact absurd (hzl.mp hb).1 (by omega)
    simp [CompressionManager.decompress, h, h2]

/-- Counterexample for C3 as stated: the two-byte input
`[0x1f, 0x8b]` starts with the gzip magic bytes, yet the sniffer does
not select gzip (whose decoder here would yield `[0]`) — the input is
returned unchanged, because detection requires strictly more than two
bytes. -/
theorem c3_sniffer_counterexample :
    GzipDecompressor.can_handle [0x1f, 0x8b] = false ∧
    CompressionManager.decompress constDecomp constDecomp [0x1f, 0x8b]
        = .ok [0x1f, 0x8b] ∧
    constDecomp [0x1f, 0x8b] = .ok [0] :=
  ⟨rfl, rfl, rfl⟩

/-- Witness for C3 (amended): a three-byte gzip-magic input is routed
to the gzip decoder, and a two-byte input passes through unchanged. -/
theorem c3_sniffer_selection_witness :
    GzipDecompressor.can_handle [0x1f, 0x8b, 0x08] = true ∧
    CompressionManager.decompress constDecomp failDecomp [0x1f, 0x8b, 0x08]
        = constDecomp [0x1f, 0x8b, 0x08] ∧
    ([0x9c, 0x78].length ≤ 2 ∧
      CompressionManager.decompress constDecomp failDecomp [0x9c, 0x78]
        = .ok [0x9c, 0x78]) :=
  ⟨rfl,
   (c3_sniffer_selection [0x1f, 0x8b, 0x08] constDecomp failDecomp).2.2.1 rfl,
   by decide,
   (c3_sniffer_selection [0x9c, 0x78] constDecomp failDecomp).2.2.2.2.2 (by decide)⟩

theorem decompress_passthrough_hello
    (gz zl : List Nat → Except DecompErr (List Nat)) :
    CompressionManager.decompress gz zl helloBytes = .ok helloBytes := by
  have h1 : GzipDecompressor.can_handle helloBytes = false := rfl
  have h2 : ZlibDecompressor.can_handle helloBytes = false := rfl
  simp [CompressionManager.decompress, h1, h2]

theorem decompress_passthrough_emptyObj
    (gz zl : List Nat → Except DecompErr (List Nat)) :
    CompressionManager.decompress gz zl emptyObjBytes = .ok emptyObjBytes := by
  have h1 : GzipDecompressor.can_handle emptyObjBytes = false := rfl
  have h2 : ZlibDecompressor.can_handle emptyObjBytes = false := rfl
  simp [CompressionManager.decompress, h1, h2]

/-- C5: a payload that fails decompression or parsing is dropped — the
store and the broadcast channel are left unchanged and the loop
continues; concretely, one malformed payload followed by one valid
payload yields exactly one store append (the valid one), and the
pipeline stays live: a further valid payload appends again. -/
theorem c5_malformed_payload_isolation
    (gz zl : List Nat → Except DecompErr (List Nat)) (max_size : Nat)
    (st : List StoredMessage) (ch ch0 : BChannel) (data : List Nat) (now : ℚ)
    (hfail : (∃ e, CompressionManager.decompress gz zl data = Except.error e) ∨
      (∃ d2, CompressionManager.decompress gz zl data = Except.ok d2 ∧
        ∃ e, JsonGelfParser.parse (utf8Lossy d2) = Except.error e)) :
    processDatagram gz zl max_size st ch data now = (st, ch) ∧
    (runEvents gz zl 10 ([], ch0)
        [UdpEvent.datagram helloBytes 1, UdpEvent.datagram emptyObjBytes 2]).1
      = [StoredMessage.new emptyGelf (utf8Lossy emptyObjBytes) 2] ∧
    (runEvents gz zl 10 ([], ch0)
        [UdpEvent.datagram helloBytes 1, UdpEvent.datagram emptyObjBytes 2,
         UdpEvent.datagram emptyObjBytes 3]).1
      = [StoredMessage.new emptyGelf (utf8Lossy emptyObjBytes) 2,
         StoredMessage.new emptyGelf (utf8Lossy emptyObjBytes) 3] := by
  have hparse_hello : JsonGelfParser.parse (utf8Lossy helloBytes)
      = Except.error JsonErr.invalidSyntax := rfl
  have hstep_hello : ∀ (st1 : List StoredMessage) (ch1 : BChannel) (t : ℚ),
      processDatagram gz zl 10 st1 ch1 helloBytes t = (st1, ch1) := by
    intro st1 ch1 t
    unfold processDatagram
    rw [decompress_passthrough_hello gz zl]
    simp [hparse_hello]
  have hstep_obj : ∀ (st1 : List StoredMessage) (ch1 : BChannel) (t : ℚ),
      processDatagram gz zl 10 st1 ch1 emptyObjBytes t
        = InMemoryMessageStore.add_message 10 st1 ch1 emptyGelf
            (utf8Lossy emptyObjBytes) t := by
    intro st1 ch1 t
    unfold processDatagram
    rw [decompress_passthrough_emptyObj gz zl]
    rfl
  refine ⟨?_, ?_, ?_⟩
  · rcases hfail with ⟨e, he⟩ | ⟨d2, hd2, e, he⟩
    · unfold processDatagram
      rw [he]
    · unfold processDatagram
      rw [hd2]
      simp [he]
  · show (runEvents gz zl 10
        (processDatagram gz zl 10 [] ch0 helloBytes 1)
        [UdpEvent.datagram emptyObjBytes 2]).1 = _
    rw [hstep_hello]
    show (runEvents gz zl 10
        (processDatagram gz zl 10 [] ch0 emptyObjBytes 2) []).1 = _
    rw [hstep_obj]
    rfl
  · show (runEvents gz zl 10
        (processDatagram gz zl 10 [] ch0 helloBytes 1)
        [UdpEvent.datagram emptyObjBytes 2, UdpEvent.datagram emptyObjBytes 3]).1 = _
    rw [hstep_hello]
    show (runEvents gz zl 10
        (processDatagram gz zl 10 [] ch0 emptyObjBytes 2)
        [UdpEvent.datagram emptyObjBytes 3]).1 = _
    rw [hstep_obj]
    show (runEvents gz zl 10
        (processDatagram gz zl 10
          (InMemoryMessageStore.add_message 10 [] ch0 emptyGelf
            (utf8Lossy emptyObjBytes) 2).1
          (InMemoryMessageStore.add_message 10 [] ch0 emptyGelf
            (utf8Lossy emptyObjBytes) 2).2 emptyObjBytes 3) []).1 = _
    rw [hstep_obj]
    rfl

/-- Witness for C5: with decoders that always fail, the `hello`
payload passes through uncompressed, fails to parse, and is dropped. -/
theorem c5_malformed_payload_isolation_witness :
    ((∃ e, CompressionManager.decompress failDecomp failDecomp helloBytes
        = Except.error e) ∨
      (∃ d2, CompressionManager.decompress failDecomp failDecomp helloBytes
          = Except.ok d2 ∧
        ∃ e, JsonGelfParser.parse (utf8Lossy d2) = Except.error e)) ∧
    processDatagram failDecomp failDecomp 5 [sampleStored] (BChannel.mk 100 [])
        helloBytes 1 = ([sampleStored], BChannel.mk 100 []) :=
  ⟨Or.inr ⟨helloBytes, rfl, JsonErr.invalidSyntax, rfl⟩,
   (c5_malformed_payload_isolation failDecomp failDecomp 5 [sampleStored]
      (BChannel.mk 100 []) (BChannel.mk 100 []) helloBytes 1
      (Or.inr ⟨helloBytes, rfl, JsonErr.invalidSyntax, rfl⟩)).1⟩

theorem exbind_ok_iff {ε α β : Type} (e : Except ε α) (f : α → Except ε β) (b : β) :
    (e >>= f) = .ok b ↔ ∃ a, e = .ok a ∧ f a = .ok b := by
  cases e <;> simp [Bind.bind, Except.bind]

theorem expure_ok_iff {ε α : Type} (a b : α) :
    (pure a : Except ε α) = .ok b ↔ b = a := by
  simp [pure, Except.pure, eq_comm]

theorem keyOccurrences_filter (l : List (String × Json)) (k key : String)
    (h : key ≠ k) :
    keyOccurrences (l.filter fun p => p.1 != k) key = keyOccurrences l key := by
  unfold keyOccurrences
  rw [List.filter_filter]
  congr 1
  apply List.filter_congr
  intro p hp
  by_cases h1 : p.1 = key
  · simp [h1, bne_iff_ne, h]
  · simp [h1]

theorem keyOccurrences_filter_self (l : List (String × Json)) (k : String) :
    keyOccurrences (l.filter fun p => p.1 != k) k = [] := by
  unfold keyOccurrences
  rw [List.filter_filter]
  have hempty : (l.filter fun p => p.1 == k && (p.1 != k)) = [] := by
    rw [List.filter_eq_nil_iff]
    intro p hp
    by_cases h1 : p.1 = k <;> simp [h1]
  rw [hempty]
  rfl

theorem getField_filter (fields : List (String × Json)) (k key : String) :
    getField (fields.filter fun p => p.1 != k) key
      = if key = k then .ok none else getField fields key := by
  by_cases hkey : key = k
  · subst hkey
    rw [if_pos rfl]
    unfold getField
    rw [keyOccurrences_filter_self]
  · rw [if_neg hkey]
    unfold getField
    rw [keyOccurrences_filter fields k key hkey]

theorem readStr_filter_ok (fields : List (String × Json)) (k key : String)
    (a : Option String) (h : readStrField fields key = .ok a) :
    ∃ a2, readStrField (fields.filter fun p => p.1 != k) key = .ok a2 := by
  unfold readStrField at h ⊢
  rw [getField_filter]
  by_cases hkey : key = k
  · rw [if_pos hkey]; exact ⟨none, rfl⟩
  · rw [if_neg hkey]; exact ⟨a, h⟩

theorem readF64_filter_ok (fields : List (String × Json)) (k key : String)
    (a : Option ℚ) (h : readF64Field fields key = .ok a) :
    ∃ a2, readF64Field (fields.filter fun p => p.1 != k) key = .ok a2 := by
  unfold readF64Field at h ⊢
  rw [getField_filter]
  by_cases hkey : key = k
  · rw [if_pos hkey]; exact ⟨none, rfl⟩
  · rw [if_neg hkey]; exact ⟨a, h⟩

theorem readUInt_filter_ok (fields : List (String × Json)) (k key : String)
    (bound : Nat) (a : Option Nat) (h : readUIntField fields key bound = .ok a) :
    ∃ a2, readUIntField (fields.filter fun p => p.1 != k) key bound = .ok a2 := by
  unfold readUIntField at h ⊢
  rw [getField_filter]
  by_cases hkey : key = k
  · rw [if_pos hkey]; exact ⟨none, rfl⟩
  · rw [if_neg hkey]; exact ⟨a, h⟩

theorem lookupKey_insertKV_self (m : List (String × Json)) (k : String) (v : Json) :
    lookupKey (insertKV m k v) k = some v := by
  induction m with
  | nil => simp [insertKV, lookupKey]
  | cons p rest ih =>
    rcases p with ⟨k0, v0⟩
    by_cases h : k0 = k
    · simp [insertKV, lookupKey, h]
    · simp only [insertKV]
      rw [if_neg (by simp [h])]
      simp [lookupKey, h, ih]

theorem lookupKey_insertKV_ne (m : List (String × Json)) (k k1 : String) (v : Json)
    (h : k1 ≠ k) :
    lookupKey (insertKV m k v) k1 = lookupKey m k1 := by
  induction m with
  | nil =>
    simp [insertKV, lookupKey]
    intro hk
    exact absurd hk.symm h
  | cons p rest ih =>
    rcases p with ⟨k0, v0⟩
    by_cases h0 : k0 = k
    · have hne : (k0 == k1) = false := by
        subst h0
        simp [bne_iff_ne]
        exact fun hk => h hk.symm
      simp only [insertKV]
      rw [if_pos (by simp [h0])]
      simp [lookupKey, hne]
    · simp only [insertKV]
      rw [if_neg (by simp [h0])]
      by_cases h2 : k0 = k1
      · simp [lookupKey, h2]
      · simp [lookupKey, h2, ih]

theorem lookupKey_append (a b : List (String × Json)) (k : String) :
    lookupKey (a ++ b) k = (lookupKey a k).orElse (fun _ => lookupKey b k) := by
  induction a with
  | nil => simp [lookupKey, Option.orElse]
  | cons p rest ih =>
    rcases p with ⟨k0, v0⟩
    by_cases h : k0 = k
    · simp [lookupKey, h, Option.orElse]
    · simp [lookupKey, h, ih]

theorem collectUnknown_lookup (l : List (String × Json)) (k : String)
    (hk : isKnownKey k = false) :
    ∀ acc : List (String × Json),
    lookupKey (l.foldl
        (fun m p => if isKnownKey p.1 then m else insertKV m p.1 p.2) acc) k
      = (lookupKey l.reverse k).orElse (fun _ => lookupKey acc k) := by
  induction l with
  | nil => intro acc; simp [lookupKey, Option.orElse]
  | cons p rest ih =>
    intro acc
    have hstep : (p :: rest).foldl
        (fun m p => if isKnownKey p.1 then m else insertKV m p.1 p.2) acc
      = rest.foldl (fun m p => if isKnownKey p.1 then m else insertKV m p.1 p.2)
          (if isKnownKey p.1 then acc else insertKV acc p.1 p.2) := rfl
    rw [hstep, ih]
    have hrev : (p :: rest).reverse = rest.reverse ++ [p] := by simp
    rw [hrev, lookupKey_append]
    cases hprev : lookupKey rest.reverse k with
    | some x => simp [Option.orElse]
    | none =>
      simp only [Option.orElse]
      rcases p with ⟨k0, v0⟩
      by_cases h0 : k0 = k
      · subst h0
        have hunk : isKnownKey k0 = false := hk
        simp [hunk, lookupKey, lookupKey_insertKV_self]
      · have hne : (k0 == k) = false := by simp [h0]
        by_cases hknown : isKnownKey k0
        · simp [hknown, lookupKey, hne]
        · simp only [hknown, lookupKey, hne, if_false, Bool.false_eq_true]
          exact lookupKey_insertKV_ne acc k0 k v0 (Ne.symm h0)

/-- C4 (amended): the parser never fails merely because a named field
is omitted — removing every occurrence of any key from a successfully
deserialized object preserves success — and it performs no semantic
validation beyond typed machine-integer decoding: any severity value
within the 8-bit unsigned range is accepted as-is (so values outside
the conventional 0–7 range, such as 9, parse successfully), while a
severity that does not fit `u8` (or a named field of the wrong JSON
type) is rejected by the typed deserializer. -/
theorem c4_parser_no_semantic_validation (fields : List (String × Json))
    (m : GelfMessage) (k : String) (n : Nat)
    (hok : decodeGelfObj fields = .ok m) (hn : n ≤ 255) :
    (∃ m2, decodeGelfObj (fields.filter fun p => p.1 != k) = .ok m2) ∧
    decodeOptUInt 255 (some (.int (n : Int))) = .ok (some n) ∧
    JsonGelfParser.parse "\x7b\"level\":9\x7d"
      = .ok { version := none, host := none, short_message := none,
              full_message := none, timestamp := none, level := some 9,
              facility := none, line := none, file := none,
              additional_fields := [] } := by
  refine ⟨?_, ?_, rfl⟩
  · unfold decodeGelfObj at hok
    simp only [exbind_ok_iff] at hok
    obtain ⟨v1, h1, v2, h2, v3, h3, v4, h4, v5, h5, v6, h6, v7, h7, v8, h8, v9, h9, hm⟩ := hok
    obtain ⟨w1, g1⟩ := readStr_filter_ok fields k "version" v1 h1
    obtain ⟨w2, g2⟩ := readStr_filter_ok fields k "host" v2 h2
    obtain ⟨w3, g3⟩ := readStr_filter_ok fields k "short_message" v3 h3
    obtain ⟨w4, g4⟩ := readStr_filter_ok fields k "full_message" v4 h4
    obtain ⟨w5, g5⟩ := readF64_filter_ok fields k "timestamp" v5 h5
    obtain ⟨w6, g6⟩ := readUInt_filter_ok fields k "level" 255 v6 h6
    obtain ⟨w7, g7⟩ := readStr_filter_ok fields k "facility" v7 h7
    obtain ⟨w8, g8⟩ := readUInt_filter_ok fields k "line" 4294967295 v8 h8
    obtain ⟨w9, g9⟩ := readStr_filter_ok fields k "file" v9 h9
    refine ⟨{ version := w1, host := w2, short_message := w3, full_message := w4,
              timestamp := w5, level := w6, facility := w7, line := w8, file := w9,
              additional_fields := collectUnknown (fields.filter fun p => p.1 != k) },
            ?_⟩
    unfold decodeGelfObj
    simp only [exbind_ok_iff]
    exact ⟨w1, g1, w2, g2, w3, g3, w4, g4, w5, g5, w6, g6, w7, g7, w8, g8, w9, g9, rfl⟩
  · have h0 : (0 : Int) ≤ (n : Int) := Int.natCast_nonneg n
    have hn1 : (n : Int) ≤ (255 : Int) := by exact_mod_cast hn
    simp [decodeOptUInt, h0, hn1]

/-- Counterexample for C4 as stated: `\x7b"level":300\x7d` is a
structurally valid JSON object carrying an out-of-range severity, yet
parsing fails, because `level` is deserialized as an 8-bit unsigned
integer. -/
theorem c4_parser_counterexample :
    JsonGelfParser.parse "\x7b\"level\":300\x7d" = .error .invalidValue := rfl

/-- Witness for C4 (amended) on a one-field object, erasing the
(absent) `host` key and decoding severity 9. -/
theorem c4_parser_no_semantic_validation_witness :
    decodeGelfObj [("_a", Json.int 1)]
      = .ok { version := none, host := none, short_message := none,
              full_message := none, timestamp := none, level := none,
              facility := none, line := none, file := none,
              additional_fields := [("_a", Json.int 1)] } ∧
    9 ≤ 255 ∧
    ((∃ m2, decodeGelfObj ([("_a", Json.int 1)].filter fun p => p.1 != "host")
        = .ok m2) ∧
     decodeOptUInt 255 (some (.int ((9 : Nat) : Int))) = .ok (some 9) ∧
     JsonGelfParser.parse "\x7b\"level\":9\x7d"
      = .ok { version := none, host := none, short_message := none,
              full_message := none, timestamp := none, level := some 9,
              facility := none, line := none, file := none,
              additional_fields := [] }) :=
  ⟨rfl, by decide,
   c4_parser_no_semantic_validation [("_a", Json.int 1)]
     { version := none, host := none, short_message := none,
       full_message := none, timestamp := none, level := none,
       facility := none, line := none, file := none,
       additional_fields := [("_a", Json.int 1)] } "host" 9 rfl (by decide)⟩

/-- C8: the concrete payload with an unknown `_custom` key parses with
the built-in fields set and `_custom -> "x"` preserved in the
additional-fields mapping; in general, every unrecognized top-level
key of a successfully deserialized object is preserved verbatim in
`additional_fields` (its last binding, matching serde's map
collection). -/
theorem c8_unknown_fields_preserved (fields : List (String × Json))
    (m : GelfMessage) (k : String) (v : Json)
    (hok : decodeGelfObj fields = .ok m) (hk : isKnownKey k = false)
    (hv : lookupLast fields k = some v) :
    lookupKey m.additional_fields k = some v ∧
    JsonGelfParser.parse
        "\x7b\"version\":\"1.1\",\"host\":\"h\",\"short_message\":\"m\",\"_custom\":\"x\"\x7d"
      = .ok { version := some "1.1", host := some "h", short_message := some "m",
              full_message := none, timestamp := none, level := none,
              facility := none, line := none, file := none,
              additional_fields := [("_custom", Json.str "x")] } := by
  refine ⟨?_, rfl⟩
  unfold decodeGelfObj at hok
  simp only [exbind_ok_iff, expure_ok_iff] at hok
  obtain ⟨v1, h1, v2, h2, v3, h3, v4, h4, v5, h5, v6, h6, v7, h7, v8, h8, v9, h9, hm⟩ := hok
  subst hm
  show lookupKey (collectUnknown fields) k = some v
  unfold collectUnknown
  rw [collectUnknown_lookup fields k hk []]
  unfold lookupLast at hv
  rw [hv]
  simp [Option.orElse]

/-- Witness for C8 on a one-field object holding only `_custom`. -/
theorem c8_unknown_fields_preserved_witness :
    decodeGelfObj [("_custom", Json.str "x")]
      = .ok { version := none, host := none, short_message := none,
              full_message := none, timestamp := none, level := none,
              facility := none, line := none, file := none,
              additional_fields := [("_custom", Json.str "x")] } ∧
    isKnownKey "_custom" = false ∧
    lookupLast [("_custom", Json.str "x")] "_custom" = some (Json.str "x") ∧
    lookupKey
      (GelfMessage.additional_fields
        { version := none, host := none, short_message := none,
          full_message := none, timestamp := none, level := none,
          facility := none, line := none, file := none,
          additional_fields := [("_custom", Json.str "x")] }) "_custom"
      = some (Json.str "x") :=
  ⟨rfl, rfl, rfl,
   (c8_unknown_fields_preserved [("_custom", Json.str "x")]
     { version := none, host := none, short_message := none,
       full_message := none, timestamp := none, level := none,
       facility := none, line := none, file := none,
       additional_fields := [("_custom", Json.str "x")] }
     "_custom" (Json.str "x") rfl rfl rfl).1⟩
